import Mathlib

/-!
Shallow embedding of `rocket-slog-fairing` (src/src/lib.rs): a Rocket fairing
that wraps a slog `Logger` in an `Arc` (the `SyncLogger` handle), emits
structured events at the four lifecycle hooks, and publishes the handle into
Rocket's managed state so request guards can retrieve it.

Structured events are modelled as a message plus an ordered list of
(field-name, value) pairs; each hook is a pure function returning the list of
events it emits (the underlying logger write path is an external collaborator).
The `Arc` sharing of `SyncLogger` is modelled by a pointer into a heap of
event sinks, so that cloning a handle versus copying the logger is observable.
-/

namespace RocketSlog

/-- A structured log event: a short message plus ordered (field-name, value)
pairs, as produced by the `slog_info!` calls in the fairing. -/
structure Event where
  msg : String
  fields : List (String × String)
deriving DecidableEq, Repr

/-- Value of the named field of an event, if present (first occurrence). -/
def Event.fieldVal (e : Event) (k : String) : Option String :=
  e.fields.lookup k

/-- Whether an event carries a field with the given name. -/
def Event.hasKey (e : Event) (k : String) : Bool :=
  (e.fields.lookup k).isSome

/-- The `key` field of a `config` event. -/
def Event.keyOf (e : Event) : Option String :=
  e.fieldVal "key"

/-- `pub struct SyncLogger(Arc<Logger>)`: the `Arc` is modelled as a pointer
into a heap of logger sinks; the wrapped logger itself is never copied. -/
structure SyncLogger where
  ptr : Nat
deriving DecidableEq, Repr

/-- `#[derive(Clone)]` on `SyncLogger` clones the `Arc`: a new handle to the
same underlying logger (same pointer), not a copy of the logger. -/
def SyncLogger.clone (s : SyncLogger) : SyncLogger :=
  ⟨s.ptr⟩

/-- `clone` iterated `n` times. -/
def SyncLogger.cloneN (s : SyncLogger) : Nat → SyncLogger
  | 0 => s
  | n + 1 => (SyncLogger.cloneN s n).clone

/-- Heap of logger sinks: sink `i` holds the stream of events emitted so far
through the logger allocated at address `i`. -/
structure Heap where
  sinks : List (List Event)
deriving DecidableEq, Repr

/-- The event stream of the sink at address `i`. -/
def Heap.sink (h : Heap) (i : Nat) : List Event :=
  h.sinks.getD i []

/-- Emitting an event through a handle appends it to the one sink the handle
points to. -/
def SyncLogger.log (s : SyncLogger) (h : Heap) (e : Event) : Heap :=
  ⟨h.sinks.set s.ptr (h.sink s.ptr ++ [e])⟩

/-- Request-size limits keyed by name (`config.limits.get(name)` is lookup by
key, yielding the limit's rendered value when that limit is configured). -/
structure Limits where
  entries : List (String × String)
deriving DecidableEq, Repr

/-- `Limits::get`: the configured limit for the given name, if present. -/
def Limits.get (l : Limits) (name : String) : Option String :=
  l.entries.lookup name

/-- The fields of `rocket::Config` that the fairing reads. Scalar settings are
kept in their rendered string form (except the numeric port and worker count);
TLS configuration is present or absent. -/
structure Config where
  environment : String
  address : String
  port : Nat
  workers : Nat
  log_level : String
  limits : Limits
  extras : List (String × String)
  tls : Option String
deriving DecidableEq, Repr

/-- `Config::tls_enabled()`: whether TLS configuration is present. -/
def Config.tls_enabled (c : Config) : Bool :=
  c.tls.isSome

/-- The fields of `rocket::Route` that the fairing reads: `base()`, `uri`,
`method` (rendered), and the signed `rank`. -/
structure Route where
  base : String
  uri : String
  method : String
  rank : Int
deriving DecidableEq, Repr

/-- Canonical string form of a route, as rendered by the host framework's
`Display` implementation (an external collaborator: method then URI); the
fairing only forwards this rendering with `%route`. -/
def Route.render (rt : Route) : String :=
  rt.method ++ " " ++ rt.uri

/-- The slice of `rocket::Rocket` the fairing interacts with: the config, the
route table, and the managed-state slot keyed by the `SyncLogger` type. -/
structure Rocket where
  config : Config
  routes : List Route
  managedLogger : Option SyncLogger
deriving DecidableEq, Repr

/-- `Rocket::manage` at type `SyncLogger`: stores the value in managed state. -/
def Rocket.manage (r : Rocket) (s : SyncLogger) : Rocket :=
  { r with managedLogger := some s }

/-- The parts of a `rocket::Request` the fairing reads: method, URI string and
the matched route (if routing succeeded). -/
structure Request where
  method : String
  uri : String
  route : Option Route
deriving DecidableEq, Repr

/-- A response status: numeric code and reason phrase. -/
structure Status where
  code : Nat
  reason : String
deriving DecidableEq, Repr

/-- The part of a `rocket::Response` the fairing reads: its status. -/
structure Response where
  status : Status
deriving DecidableEq, Repr

/-- `pub struct SlogFairing(SyncLogger)`. -/
structure SlogFairing where
  logger : SyncLogger
deriving DecidableEq, Repr

/-- One `config` event, with its `key` and `value` fields. -/
def configEvent (k v : String) : Event :=
  ⟨"config", [("key", k), ("value", v)]⟩

/-- The `config` event(s) for one named size limit: one event when the limit is
present, none when absent (`if let Some(..) = config.limits.get(name)`). -/
def limitEvent (l : Limits) (name label : String) : List Event :=
  match l.get name with
  | some v => [configEvent label v]
  | none => []

/-- The config events emitted by `on_attach`, in source order: the five scalar
settings, the three named limits when present, then one event per extra. -/
def configEvents (c : Config) : List Event :=
  [ configEvent "environment" c.environment
  , configEvent "address" c.address
  , configEvent "port" (toString c.port)
  , configEvent "workers" (toString c.workers)
  , configEvent "log_level" c.log_level ]
  ++ limitEvent c.limits "forms" "forms limit"
  ++ limitEvent c.limits "json" "json limit"
  ++ limitEvent c.limits "msgpack" "msgpack limit"
  ++ c.extras.map (fun kv => configEvent kv.1 kv.2)

/-- `Fairing::on_attach`: emits the config events, then publishes a clone of
the fairing's logger into managed state and returns `Ok` of the new state. -/
def on_attach (f : SlogFairing) (r : Rocket) : List Event × Except Rocket Rocket :=
  (configEvents r.config, Except.ok (r.manage f.logger.clone))

/-- The `route` event for one route: base and path, then the method when the
rank is negative, otherwise the rank. -/
def routeEvent (rt : Route) : Event :=
  if rt.rank < 0 then
    ⟨"route", [("base", rt.base), ("path", rt.uri), ("method", rt.method)]⟩
  else
    ⟨"route", [("base", rt.base), ("path", rt.uri), ("rank", toString rt.rank)]⟩

/-- The address string of the `listening` event:
`format!("{}://{}:{}", scheme, config.address, config.port)` with scheme
`https` when TLS is enabled, else `http`. -/
def listeningAddr (c : Config) : String :=
  (if c.tls_enabled then "https" else "http") ++ "://" ++ c.address ++ ":" ++ toString c.port

/-- The `listening` event. -/
def listeningEvent (c : Config) : Event :=
  ⟨"listening", [("address", listeningAddr c)]⟩

/-- `Fairing::on_launch`: one `route` event per registered route, in table
order, followed by the single `listening` event. -/
def on_launch (f : SlogFairing) (r : Rocket) : List Event :=
  r.routes.map routeEvent ++ [listeningEvent r.config]

/-- `Fairing::on_request`: one `request` event with the method and URI string;
the request is returned as the hook leaves it. -/
def on_request (f : SlogFairing) (req : Request) : List Event × Request :=
  ([⟨"request", [("method", req.method), ("uri", req.uri)]⟩], req)

/-- `format!("{} {}", status.code, status.reason)`. -/
def statusString (s : Status) : String :=
  toString s.code ++ " " ++ s.reason

/-- `Fairing::on_response`: one `response` event — route and status when the
request matched a route, status only otherwise; the response is returned as
the hook leaves it. -/
def on_response (f : SlogFairing) (req : Request) (resp : Response) :
    List Event × Response :=
  match req.route with
  | some rt => ([⟨"response", [("route", rt.render), ("status", statusString resp.status)]⟩], resp)
  | none => ([⟨"response", [("status", statusString resp.status)]⟩], resp)

/-- `rocket::Outcome` as seen by a request guard. -/
inductive Outcome (α : Type) where
  | success : α → Outcome α
  | failure : Outcome α
  | forward : Outcome α
deriving DecidableEq, Repr

/-- `FromRequest for SyncLogger`: looks up the managed `State<SyncLogger>`
(the `?` propagates the failure when none was published) and returns a clone
of the stored handle. -/
def SyncLogger.from_request (managed : Option SyncLogger) : Outcome SyncLogger :=
  match managed with
  | some s => Outcome.success s.clone
  | none => Outcome.failure

/-! ### Helper lemmas -/

theorem routeEvent_msg (rt : Route) : (routeEvent rt).msg = "route" := by
  unfold routeEvent
  split <;> rfl

theorem on_launch_filter_route (f : SlogFairing) (r : Rocket) :
    (on_launch f r).filter (fun e => e.msg == "route") = r.routes.map routeEvent := by
  unfold on_launch
  rw [List.filter_append]
  have h1 : (r.routes.map routeEvent).filter (fun e => e.msg == "route")
      = r.routes.map routeEvent := by
    apply List.filter_eq_self.mpr
    intro e he
    obtain ⟨rt, _, rfl⟩ := List.mem_map.mp he
    simp [routeEvent_msg]
  rw [h1]
  simp [listeningEvent]

theorem on_launch_filter_listening (f : SlogFairing) (r : Rocket) :
    (on_launch f r).filter (fun e => e.msg == "listening") = [listeningEvent r.config] := by
  unfold on_launch
  rw [List.filter_append]
  have h1 : (r.routes.map routeEvent).filter (fun e => e.msg == "listening") = [] := by
    apply List.filter_eq_nil_iff.mpr
    intro e he
    obtain ⟨rt, _, rfl⟩ := List.mem_map.mp he
    simp [routeEvent_msg]
  rw [h1]
  simp [listeningEvent]

theorem configEvent_keyOf (k v : String) : (configEvent k v).keyOf = some k := by
  simp [configEvent, Event.keyOf, Event.fieldVal, List.lookup]

theorem limitEvent_msg (l : Limits) (name label : String) :
    ∀ e ∈ limitEvent l name label, e.msg = "config" := by
  intro e he
  unfold limitEvent at he
  rcases hg : l.get name with _ | v <;> rw [hg] at he <;> simp at he
  subst he
  rfl

theorem configEvents_all_config (c : Config) :
    ((configEvents c).all (fun e => e.msg == "config")) = true := by
  rw [List.all_eq_true]
  intro e he
  unfold configEvents at he
  simp only [List.mem_append] at he
  rcases he with ((((he | he) | he) | he) | he)
  · simp at he
    rcases he with rfl | rfl | rfl | rfl | rfl <;> rfl
  · simp [limitEvent_msg c.limits "forms" "forms limit" e he]
  · simp [limitEvent_msg c.limits "json" "json limit" e he]
  · simp [limitEvent_msg c.limits "msgpack" "msgpack limit" e he]
  · obtain ⟨kv, _, rfl⟩ := List.mem_map.mp he
    rfl

theorem limitEvent_keys (l : Limits) (name label : String) :
    (limitEvent l name label).map Event.keyOf
      = if (l.get name).isSome then [some label] else [] := by
  unfold limitEvent
  cases l.get name <;> simp [configEvent_keyOf]

/-! ### Claim theorems -/

/-- C1: `on_launch` emits exactly one structured `route` event per enumerated
route; every route event carries the base and path fields, and exactly one of
the method/rank fields — the method field when the route's rank is negative,
the rank field when it is non-negative — never both and never neither. -/
theorem on_launch_route_events (f : SlogFairing) (r : Rocket) :
    ((on_launch f r).filter (fun e => e.msg == "route")).length = r.routes.length
    ∧ (∀ rt ∈ r.routes, routeEvent rt ∈ on_launch f r)
    ∧ (∀ rt : Route,
        (routeEvent rt).msg = "route"
        ∧ (routeEvent rt).hasKey "base" = true
        ∧ (routeEvent rt).hasKey "path" = true
        ∧ (rt.rank < 0 →
            (routeEvent rt).hasKey "method" = true ∧ (routeEvent rt).hasKey "rank" = false)
        ∧ (0 ≤ rt.rank →
            (routeEvent rt).hasKey "rank" = true ∧ (routeEvent rt).hasKey "method" = false)) := by
  refine ⟨by rw [on_launch_filter_route]; simp, ?_, ?_⟩
  · intro rt hrt
    unfold on_launch
    exact List.mem_append_left _ (List.mem_map_of_mem _ hrt)
  · intro rt
    refine ⟨routeEvent_msg rt, ?_, ?_, ?_, ?_⟩ <;>
      unfold routeEvent <;>
      rcases lt_or_ge rt.rank 0 with h | h
    · simp [h, Event.hasKey, List.lookup]
    · simp [not_lt.mpr h, Event.hasKey, List.lookup]
    · simp [h, Event.hasKey, List.lookup]
    · simp [not_lt.mpr h, Event.hasKey, List.lookup]
    · intro h0
      simp [h, Event.hasKey, List.lookup]
    · intro h0
      exact absurd h0 (not_lt.mpr h)
    · intro h0
      exact absurd h (not_lt.mpr h0)
    · intro h0
      simp [not_lt.mpr h, Event.hasKey, List.lookup]

/-- Witness for C1 at the spec's Scenario C routes: a rank `-1` `GET` route
gets a method field and no rank field; a rank `3` route gets a rank field and
no method field; each event appears in the launch stream. -/
theorem on_launch_route_events_witness :
    ((-1 : Int) < 0
      ∧ (routeEvent ⟨"/", "/", "GET", -1⟩).hasKey "method" = true
      ∧ (routeEvent ⟨"/", "/", "GET", -1⟩).hasKey "rank" = false)
    ∧ ((0 : Int) ≤ 3
      ∧ (routeEvent ⟨"/", "/hello", "GET", 3⟩).hasKey "rank" = true
      ∧ (routeEvent ⟨"/", "/hello", "GET", 3⟩).hasKey "method" = false)
    ∧ routeEvent ⟨"/", "/", "GET", -1⟩ ∈
        on_launch ⟨⟨0⟩⟩ ⟨⟨"dev", "0.0.0.0", 8000, 4, "normal", ⟨[]⟩, [], none⟩,
          [⟨"/", "/", "GET", -1⟩, ⟨"/", "/hello", "GET", 3⟩], none⟩ := by
  have h1 := (on_launch_route_events ⟨⟨0⟩⟩
    ⟨⟨"dev", "0.0.0.0", 8000, 4, "normal", ⟨[]⟩, [], none⟩,
      [⟨"/", "/", "GET", -1⟩, ⟨"/", "/hello", "GET", 3⟩], none⟩).2
  have hm := (h1.2 ⟨"/", "/", "GET", -1⟩).2.2.2.1 (by decide)
  have hr := (h1.2 ⟨"/", "/hello", "GET", 3⟩).2.2.2.2 (by decide)
  exact ⟨⟨by decide, hm⟩, ⟨by decide, hr⟩, h1.1 _ (by decide)⟩

/-- C2: after the route events, `on_launch` emits exactly one `listening`
event whose address field is the scheme (`https` when TLS is enabled, else
`http`) followed by `://`, the configured address, `:` and the port; checked
on the spec's Scenario A and Scenario B configurations. -/
theorem on_launch_listening_event (f : SlogFairing) (r : Rocket) :
    (on_launch f r).filter (fun e => e.msg == "listening") = [listeningEvent r.config]
    ∧ (on_launch f r).drop r.routes.length = [listeningEvent r.config]
    ∧ (listeningEvent r.config).fieldVal "address" = some (listeningAddr r.config)
    ∧ listeningAddr ⟨"dev", "0.0.0.0", 8000, 4, "normal", ⟨[]⟩, [], none⟩
        = "http://0.0.0.0:8000"
    ∧ listeningAddr ⟨"prod", "example.com", 443, 16, "critical", ⟨[]⟩, [], some "tls"⟩
        = "https://example.com:443" := by
  refine ⟨on_launch_filter_listening f r, ?_, ?_, ?_, ?_⟩
  · unfold on_launch
    have : r.routes.length = (r.routes.map routeEvent).length := (List.length_map _ _).symm
    rw [this, List.drop_left]
  · simp [listeningEvent, Event.fieldVal, List.lookup]
  · decide
  · decide

/-- C3: `on_attach` emits exactly the config events — one per present setting
and no other: the projection of the emitted stream onto the `key` field is the
five scalar keys, then `forms limit` / `json limit` / `msgpack limit` exactly
when the corresponding limit is present, then one key per extra setting, and
every emitted event is a `config` event. -/
theorem on_attach_config_events (f : SlogFairing) (r : Rocket) :
    (on_attach f r).1 = configEvents r.config
    ∧ ((configEvents r.config).all (fun e => e.msg == "config")) = true
    ∧ (configEvents r.config).map Event.keyOf
      = [some "environment", some "address", some "port", some "workers", some "log_level"]
        ++ (if (r.config.limits.get "forms").isSome then [some "forms limit"] else [])
        ++ (if (r.config.limits.get "json").isSome then [some "json limit"] else [])
        ++ (if (r.config.limits.get "msgpack").isSome then [some "msgpack limit"] else [])
        ++ r.config.extras.map (fun kv => some kv.1) := by
  refine ⟨rfl, configEvents_all_config r.config, ?_⟩
  · unfold configEvents
    simp only [List.map_append, List.map_map, limitEvent_keys]
    simp [configEvent_keyOf, Function.comp]

/-- C4: `on_attach` returns the success variant carrying the input pipeline
state with the Logger Handle published into managed state (a handle to the
same underlying logger as the fairing's); the configuration and route table
are not mutated. There is no failing publication path. -/
theorem on_attach_publishes (f : SlogFairing) (r : Rocket) :
    ∃ r', (on_attach f r).2 = Except.ok r'
      ∧ (∃ s, r'.managedLogger = some s ∧ s.ptr = f.logger.ptr)
      ∧ r'.config = r.config
      ∧ r'.routes = r.routes := by
  exact ⟨r.manage f.logger.clone, rfl, ⟨f.logger.clone, rfl, rfl⟩, rfl, rfl⟩

/-- C10: `on_attach` always returns `Ok` — the publication step has no failure
path — and the returned state is exactly the input state with a clone of the
fairing's own `SyncLogger` added to managed state, so the published handle
points at the same underlying logger the hooks write to. -/
theorem on_attach_always_ok (f : SlogFairing) (r : Rocket) :
    (on_attach f r).2 = Except.ok { r with managedLogger := some f.logger.clone }
    ∧ f.logger.clone.ptr = f.logger.ptr := by
  exact ⟨rfl, rfl⟩

/-- C5: for every completed response, `on_response` emits exactly one
`response` event; its status field is always `"<code> <reason>"`, it carries a
route field (the matched route's canonical rendering) exactly when the request
was matched to a route, and `statusString` renders status 200 as `"200 OK"`. -/
theorem on_response_event (f : SlogFairing) (req : Request) (resp : Response) :
    (on_response f req resp).1.length = 1
    ∧ (∀ e ∈ (on_response f req resp).1,
        e.msg = "response"
        ∧ e.fieldVal "status" = some (statusString resp.status)
        ∧ (e.hasKey "route" = true ↔ req.route.isSome = true)
        ∧ (∀ rt, req.route = some rt → e.fieldVal "route" = some rt.render))
    ∧ statusString ⟨200, "OK"⟩ = "200 OK" := by
  rcases hq : req.route with _ | rt
  · refine ⟨by simp [on_response, hq], ?_, by decide⟩
    intro e he
    simp only [on_response, hq, List.mem_singleton] at he
    subst he
    refine ⟨rfl, rfl, ?_, ?_⟩
    · simp [Event.hasKey, Event.fieldVal, List.lookup, hq]
    · intro rt hrt
      cases hrt
  · refine ⟨by simp [on_response, hq], ?_, by decide⟩
    intro e he
    simp only [on_response, hq, List.mem_singleton] at he
    subst he
    refine ⟨rfl, rfl, ?_, ?_⟩
    · simp [Event.hasKey, Event.fieldVal, List.lookup, hq]
    · intro rt' hrt
      cases hrt
      rfl

/-- Witness for C5 at the spec's Scenario D: a request matched to the `/`
route, response status 200, yields the event with route `"GET /"` and status
`"200 OK"`. -/
theorem on_response_event_witness :
    ⟨"response", [("route", "GET /"), ("status", "200 OK")]⟩ ∈
      (on_response ⟨⟨0⟩⟩ ⟨"GET", "/", some ⟨"/", "/", "GET", 0⟩⟩ ⟨⟨200, "OK"⟩⟩).1
    ∧ (⟨"response", [("route", "GET /"), ("status", "200 OK")]⟩ : Event).fieldVal "route"
        = some (Route.render ⟨"/", "/", "GET", 0⟩)
    ∧ (⟨"response", [("route", "GET /"), ("status", "200 OK")]⟩ : Event).fieldVal "status"
        = some (statusString ⟨200, "OK"⟩) := by
  have h := on_response_event ⟨⟨0⟩⟩ ⟨"GET", "/", some ⟨"/", "/", "GET", 0⟩⟩ ⟨⟨200, "OK"⟩⟩
  have he : (⟨"response", [("route", "GET /"), ("status", "200 OK")]⟩ : Event) ∈
      (on_response ⟨⟨0⟩⟩ ⟨"GET", "/", some ⟨"/", "/", "GET", 0⟩⟩ ⟨⟨200, "OK"⟩⟩).1 := by
    decide
  have hf := h.2.1 _ he
  exact ⟨he, hf.2.2.2 _ rfl, hf.2.1⟩

/-- C8: for every inbound request, `on_request` emits exactly one `request`
event, its field names are exactly `method` and `uri`, and their values are
the request's method and its URI string. -/
theorem on_request_event (f : SlogFairing) (req : Request) :
    (on_request f req).1.length = 1
    ∧ (on_request f req).1.map (fun e => e.msg) = ["request"]
    ∧ (on_request f req).1.map (fun e => e.fields.map Prod.fst) = [["method", "uri"]]
    ∧ (on_request f req).1.map (fun e => e.fieldVal "method") = [some req.method]
    ∧ (on_request f req).1.map (fun e => e.fieldVal "uri") = [some req.uri] := by
  refine ⟨rfl, rfl, rfl, ?_, ?_⟩ <;>
    simp [on_request, Event.fieldVal, List.lookup]

/-- C9: the hooks leave the pipeline objects unchanged — `on_request` returns
the request it received unmodified, and `on_response` returns the response it
received unmodified (the request is taken by shared reference there). -/
theorem hooks_do_not_mutate (f : SlogFairing) (req : Request) (resp : Response) :
    (on_request f req).2 = req ∧ (on_response f req resp).2 = resp := by
  refine ⟨rfl, ?_⟩
  rcases hq : req.route with _ | rt <;> simp [on_response, hq]

/-- C6: the `SyncLogger` request guard succeeds, returning a clone pointing at
the same underlying logger, exactly when a handle has been published into
managed state; with nothing published it returns the failure outcome (a total
function: no blocking, no panic). -/
theorem from_request_succeeds_iff (m : Option SyncLogger) :
    (∀ s, m = some s →
        SyncLogger.from_request m = Outcome.success s.clone ∧ s.clone.ptr = s.ptr)
    ∧ (m = none → SyncLogger.from_request m = Outcome.failure)
    ∧ (∀ s', SyncLogger.from_request m = Outcome.success s' → m.isSome = true) := by
  refine ⟨?_, ?_, ?_⟩
  · intro s hs
    subst hs
    exact ⟨rfl, rfl⟩
  · intro hm
    subst hm
    rfl
  · intro s' hs'
    rcases m with _ | s
    · simp [SyncLogger.from_request] at hs'
    · rfl

/-- Witness for C6: with the handle at address 5 published the guard succeeds
with a handle to address 5; with nothing published it fails. -/
theorem from_request_succeeds_iff_witness :
    SyncLogger.from_request (some ⟨5⟩) = Outcome.success ⟨5⟩
    ∧ SyncLogger.from_request (none : Option SyncLogger) = Outcome.failure := by
  have h1 := (from_request_succeeds_iff (some ⟨5⟩)).1 ⟨5⟩ rfl
  have h2 := (from_request_succeeds_iff (none : Option SyncLogger)).2.1 rfl
  exact ⟨h1.1, h2⟩

/-- C7: any number of clones of a `SyncLogger` point at the same single
underlying logger, emitting through any clone has exactly the effect of
emitting through the original, and one emission appends the event once to
that one sink, leaving every other sink untouched (no duplication). -/
theorem clone_shares_underlying (s : SyncLogger) (n : Nat) (h : Heap) (e : Event) :
    (s.cloneN n).ptr = s.ptr
    ∧ (s.cloneN n).log h e = s.log h e
    ∧ (s.ptr < h.sinks.length →
        (s.log h e).sink s.ptr = h.sink s.ptr ++ [e]
        ∧ (∀ j, j ≠ s.ptr → (s.log h e).sink j = h.sink j)
        ∧ (s.log h e).sinks.length = h.sinks.length) := by
  have hptr : (s.cloneN n).ptr = s.ptr := by
    induction n with
    | zero => rfl
    | succ k ih => simpa [SyncLogger.cloneN, SyncLogger.clone] using ih
  refine ⟨hptr, ?_, ?_⟩
  · unfold SyncLogger.log Heap.sink
    rw [hptr]
  · intro hlt
    refine ⟨?_, ?_, ?_⟩
    · unfold SyncLogger.log Heap.sink
      simp [List.getD, List.getElem?_set_eq_of_lt _ hlt]
    · intro j hj
      unfold SyncLogger.log Heap.sink
      simp [List.getD, List.getElem?_set_ne (fun hc => hj hc.symm)]
    · unfold SyncLogger.log
      simp

/-- Witness for C7: a two-fold clone of the handle at address 0 over a
one-sink heap — same pointer, same heap effect, event appended once. -/
theorem clone_shares_underlying_witness :
    ((SyncLogger.cloneN ⟨0⟩ 2).ptr = (0 : Nat)
      ∧ (SyncLogger.cloneN ⟨0⟩ 2).log ⟨[[]]⟩ ⟨"request", []⟩
          = SyncLogger.log ⟨0⟩ ⟨[[]]⟩ ⟨"request", []⟩)
    ∧ (0 : Nat) < 1
    ∧ (SyncLogger.log ⟨0⟩ ⟨[[]]⟩ ⟨"request", []⟩).sink 0 = [⟨"request", []⟩] := by
  have h := clone_shares_underlying ⟨0⟩ 2 ⟨[[]]⟩ ⟨"request", []⟩
  have h3 := h.2.2 (by decide)
  exact ⟨⟨h.1, h.2.1⟩, by decide, h3.1⟩

end RocketSlog
